import Mathlib

/-!
# PrivateVoiceBot: the private voice channel lifecycle

A shallow embedding of `main.go`: the `voiceChannel` record, the `channels`
map, `makeNewPrivateVoice`, the sweep goroutine and the `channelDelete`
handler.  Calls to the Discord session are recorded in a trace of `Call`
values; what the session answers is an input (`discordgo.Session`), so a
property holds for every answer the platform may give.  A `panic` raised by
`checkError` ends the running handler and keeps the writes made so far: the
handlers report it in a `panicked` flag.

The handlers run as goroutines, and a platform call is where one of them
waits while others run.  `makeNewPrivateVoice` reads the map, waits for
`s.GuildChannelCreate`, and then writes the map, so the running bot
(`Bot.step`) takes it in two steps, and other handlers may run between them.
-/

namespace PrivateVoiceBot

/-! ## Time -/

/-- An instant of `time.Time`, in nanoseconds. -/
structure Time where
  ns : Int
  deriving DecidableEq

/-- A `time.Duration`, in nanoseconds. -/
abbrev Duration := Int

/-- The instant `t + d` (`Time.Add`). -/
def Time.Add (t : Time) (d : Duration) : Time := ⟨t.ns + d⟩

/-- Whether `t` is strictly earlier than `u` (`Time.Before`). -/
def Time.Before (t u : Time) : Bool := decide (t.ns < u.ns)

/-! ## Data model -/

/-- Type for voice channels in guilds made with this bot. -/
structure voiceChannel where
  GuildID : String
  ChannelID : String
  ParentChannelID : String
  OwnerID : String
  Name : String
  OPs : List String
  CreatedAt : Time
  deriving DecidableEq

/-- The package-level variables that `main` sets, and the library constant
`discordgo.PermissionAllVoice`, whose value depends on the library version. -/
structure Globals where
  voicePrefix : String
  channelDeleteDelay : Duration
  PermissionAllVoice : Nat

/-- The values `main` assigns: `voicePrefix = "PV: "` and
`channelDeleteDelay = 30 * time.Second`. -/
def mainGlobals (allVoice : Nat) : Globals :=
  { voicePrefix := "PV: ", channelDeleteDelay := 30 * 1000000000, PermissionAllVoice := allVoice }

/-- The predicate `o.CreatedAt.Add(channelDeleteDelay).Before(time.Now())`. -/
def voiceChannel.IsExpired (o : voiceChannel) (g : Globals) (now : Time) : Bool :=
  (o.CreatedAt.Add g.channelDeleteDelay).Before now

/-- The constant `discordgo.PermissionViewChannel`. -/
def PermissionViewChannel : Nat := 0x400

/-- The constant `discordgo.PermissionVoiceConnect`. -/
def PermissionVoiceConnect : Nat := 0x100000

/-- The allow bitset of the overwrite that `makeNewPrivateVoice` sets for the
everyone role. -/
def everyoneAllow : Nat := 0

/-- The deny bitset of the overwrite that `makeNewPrivateVoice` sets for the
everyone role. -/
def everyoneDeny : Nat := 66060288

/-! ## The Discord session -/

/-- The two values of `discordgo.PermissionOverwriteType` the bot uses. -/
inductive PermissionOverwriteType where
  | Role
  | Member
  deriving DecidableEq

/-- A `discordgo.User`. -/
structure discordgo.User where
  ID : String
  deriving DecidableEq

/-- A `discordgo.Member`. -/
structure discordgo.Member where
  User : discordgo.User
  deriving DecidableEq

/-- A `discordgo.VoiceState`. -/
structure discordgo.VoiceState where
  UserID : String
  ChannelID : String
  deriving DecidableEq

/-- A `discordgo.Guild` of the state cache. -/
structure discordgo.Guild where
  Members : List discordgo.Member
  VoiceStates : List discordgo.VoiceState
  deriving DecidableEq

/-- A `discordgo.Channel`. -/
structure discordgo.Channel where
  ID : String
  Name : String
  deriving DecidableEq

/-- A `discordgo.MessageCreate`. -/
structure discordgo.MessageCreate where
  ChannelID : String
  GuildID : String
  Author : discordgo.User
  deriving DecidableEq

/-- What the session answers during one handler run.  A `Bool` is `true`
when the returned `err` is nil; an `Option` is `none` when `err` is not
nil.  `Channel` may also answer a nil channel without an error. -/
structure discordgo.Session where
  ChannelMessageSend : String → String → Bool
  Channel : String → Option (Option discordgo.Channel)
  GuildChannelCreate : String → String → Option discordgo.Channel
  ChannelPermissionSet : String → String → PermissionOverwriteType → Nat → Nat → Bool
  ChannelDelete : String → Bool
  StateGuild : String → Option discordgo.Guild
  StateUserChannelPermissions : String → String → Option Nat

/-- A request sent to the platform. -/
inductive Call where
  | ChannelMessageSend (channelID content : String)
  | Channel (channelID : String)
  | GuildChannelCreate (guildID name : String)
  | ChannelPermissionSet (channelID targetID : String) (t : PermissionOverwriteType)
      (allow deny : Nat)
  | ChannelDelete (channelID : String)
  deriving DecidableEq

/-! ## The `channels` map -/

/-- The map `channels`: its entries, each key once, in the order a `range`
visits them. -/
abbrev Registry := List (String × voiceChannel)

/-- The lookup `channels[k]`. -/
def Registry.get (m : Registry) (k : String) : Option voiceChannel :=
  (m.find? (fun e => e.1 == k)).map (fun e => e.2)

/-- The statement `delete(channels, k)`. -/
def Registry.delete (m : Registry) (k : String) : Registry :=
  m.filter (fun e => e.1 != k)

/-- The assignment `channels[k] = v`. -/
def Registry.set (m : Registry) (k : String) (v : voiceChannel) : Registry :=
  Registry.delete m k ++ [(k, v)]

/-- What a handler leaves behind: the map, the requests it sent, and whether
it ended in a panic. -/
structure Outcome where
  channels : Registry
  calls : List Call
  panicked : Bool
  deriving DecidableEq

/-! ## `makeNewPrivateVoice` -/

/-- The loop over `guild.Members` that ends `makeNewPrivateVoice`: the
requests it sends and whether it panicked. -/
def grantMembers (g : Globals) (s : discordgo.Session) (newID parentID : String) :
    List discordgo.Member → List Call × Bool
  | [] => ([], false)
  | member :: rest =>
    match s.StateUserChannelPermissions member.User.ID parentID with
    | none => ([], true)
    | some perm =>
      if perm &&& PermissionViewChannel == 0 then
        grantMembers g s newID parentID rest
      else
        let call := Call.ChannelPermissionSet newID member.User.ID
          PermissionOverwriteType.Member g.PermissionAllVoice 0
        if s.ChannelPermissionSet newID member.User.ID
            PermissionOverwriteType.Member g.PermissionAllVoice 0 then
          let r := grantMembers g s newID parentID rest
          (call :: r.1, r.2)
        else
          ([call], true)

/-- The record `makeNewPrivateVoice` stores for a new channel. -/
def newVoiceChannel (g : Globals) (now : Time) (message : discordgo.MessageCreate)
    (newID title : String) : voiceChannel :=
  { GuildID := message.GuildID
    ChannelID := newID
    ParentChannelID := message.ChannelID
    OwnerID := message.Author.ID
    Name := g.voicePrefix ++ title
    OPs := []
    CreatedAt := now }

/-- The part of `makeNewPrivateVoice` from `s.GuildChannelCreate` on; `pre`
holds the requests sent before it. -/
def createAndGrant (g : Globals) (s : discordgo.Session) (now : Time) (channels : Registry)
    (title : String) (message : discordgo.MessageCreate) (parentChannel : discordgo.Channel)
    (pre : List Call) : Outcome :=
  let create := Call.GuildChannelCreate message.GuildID (g.voicePrefix ++ title)
  match s.GuildChannelCreate message.GuildID (g.voicePrefix ++ title) with
  | none => ⟨channels, pre ++ [create], true⟩
  | some newChannel =>
    let channels1 := Registry.set channels newChannel.ID
      (newVoiceChannel g now message newChannel.ID title)
    let text := "Created voice channel `" ++ (g.voicePrefix ++ title) ++ "`"
    let created := Call.ChannelMessageSend message.ChannelID text
    if s.ChannelMessageSend message.ChannelID text then
      let deny := Call.ChannelPermissionSet newChannel.ID message.GuildID
        PermissionOverwriteType.Role everyoneAllow everyoneDeny
      if s.ChannelPermissionSet newChannel.ID message.GuildID
          PermissionOverwriteType.Role everyoneAllow everyoneDeny then
        match s.StateGuild message.GuildID with
        | none => ⟨channels1, pre ++ [create, created, deny], true⟩
        | some guild =>
          let r := grantMembers g s newChannel.ID parentChannel.ID guild.Members
          ⟨channels1, pre ++ [create, created, deny] ++ r.1, r.2⟩
      else
        ⟨channels1, pre ++ [create, created, deny], true⟩
    else
      ⟨channels1, pre ++ [create, created], true⟩

/-- The part of `makeNewPrivateVoice` from `s.Channel` on; `pre` holds the
requests sent before it. -/
def lookupAndCreate (g : Globals) (s : discordgo.Session) (now : Time) (channels : Registry)
    (title : String) (message : discordgo.MessageCreate) (pre : List Call) : Outcome :=
  let fetch := Call.Channel message.ChannelID
  match s.Channel message.ChannelID with
  | none => ⟨channels, pre ++ [fetch], true⟩
  | some none =>
    let text := "Cannot create channel here."
    ⟨channels, pre ++ [fetch, Call.ChannelMessageSend message.ChannelID text],
      !s.ChannelMessageSend message.ChannelID text⟩
  | some (some parentChannel) =>
    match channels.find? (fun e => e.2.ParentChannelID == message.ChannelID) with
    | some e =>
      let text := "There is already a voice channel `" ++ e.2.Name ++ "`"
      ⟨channels, pre ++ [fetch, Call.ChannelMessageSend message.ChannelID text],
        !s.ChannelMessageSend message.ChannelID text⟩
    | none =>
      let title1 := if title.utf8ByteSize == 0 then parentChannel.Name else title
      createAndGrant g s now channels title1 message parentChannel (pre ++ [fetch])

/-- The function `makeNewPrivateVoice(s, title, message)`, run on the map
`channels` at the clock reading `now`. -/
def makeNewPrivateVoice (g : Globals) (s : discordgo.Session) (now : Time) (channels : Registry)
    (title : String) (message : discordgo.MessageCreate) : Outcome :=
  if g.voicePrefix.utf8ByteSize + title.utf8ByteSize > 100 then
    let text := "<@" ++ message.Author.ID ++ ">, that does not fit!"
    if s.ChannelMessageSend message.ChannelID text then
      lookupAndCreate g s now channels title message
        [Call.ChannelMessageSend message.ChannelID text]
    else
      ⟨channels, [Call.ChannelMessageSend message.ChannelID text], true⟩
  else
    lookupAndCreate g s now channels title message []

/-! ## `channelDelete` -/

/-- The method `ConfirmDelete`. -/
def voiceChannel.ConfirmDelete (o : voiceChannel) (s : discordgo.Session)
    (channels : Registry) : Outcome :=
  let text := "Deleted voice channel `" ++ o.Name ++ "`"
  ⟨Registry.delete channels o.ChannelID,
    [Call.ChannelMessageSend o.ParentChannelID text],
    !s.ChannelMessageSend o.ParentChannelID text⟩

/-- The handler `channelDelete`, for the notification that the channel `id`
was deleted. -/
def channelDelete (s : discordgo.Session) (channels : Registry) (id : String) : Outcome :=
  match Registry.get channels id with
  | some channel => channel.ConfirmDelete s channels
  | none => ⟨channels, [], false⟩

/-! ## The sweep goroutine -/

/-- The counting loop over `guild.VoiceStates`. -/
def connectedCount (guild : discordgo.Guild) (id : String) : Nat :=
  guild.VoiceStates.foldl
    (fun connected voiceState => if voiceState.ChannelID == id then connected + 1 else connected) 0

/-- The method `Delete`: the request and whether it succeeded. -/
def voiceChannel.Delete (o : voiceChannel) (s : discordgo.Session) : Call × Bool :=
  (Call.ChannelDelete o.ChannelID, s.ChannelDelete o.ChannelID)

/-- The loop `for id, channel := range channels` of one tick, over the
entries still to visit: the requests it sends and whether it panicked.  The
clock reading `now` stands for the `time.Now()` of every `IsExpired` call of
the tick. -/
def sweepEntries (g : Globals) (s : discordgo.Session) (now : Time) :
    List (String × voiceChannel) → List Call × Bool
  | [] => ([], false)
  | (id, channel) :: rest =>
    match s.StateGuild channel.GuildID with
    | none => ([], true)
    | some guild =>
      if channel.IsExpired g now && connectedCount guild id == 0 then
        if (channel.Delete s).2 then
          let r := sweepEntries g s now rest
          ((channel.Delete s).1 :: r.1, r.2)
        else
          ([(channel.Delete s).1], true)
      else
        sweepEntries g s now rest

/-- One tick of the sweep: the `case <-ticker.C` branch. -/
def sweepTick (g : Globals) (s : discordgo.Session) (now : Time) (channels : Registry) :
    Outcome :=
  ⟨channels, (sweepEntries g s now channels).1, (sweepEntries g s now channels).2⟩

/-! ## The two parts of `makeNewPrivateVoice` -/

/-- A run of `makeNewPrivateVoice` that has passed its checks and waits for
the answer of `s.GuildChannelCreate`: the title after the substitution of
the parent channel's name, the message and the parent channel. -/
structure Pending where
  title : String
  message : discordgo.MessageCreate
  parentChannel : discordgo.Channel
  deriving DecidableEq

/-- How the first part of `makeNewPrivateVoice` ends: the function has
returned or panicked, or it waits for `s.GuildChannelCreate` after having
sent the requests `sent`. -/
inductive Checked where
  | done (r : Outcome)
  | waiting (p : Pending) (sent : List Call)
  deriving DecidableEq

/-- The part of `makeNewPrivateVoice` from `s.Channel` to the duplicate check
and the substitution of the title; `pre` holds the requests sent before
it. -/
def lookupChecks (s : discordgo.Session) (channels : Registry)
    (title : String) (message : discordgo.MessageCreate) (pre : List Call) : Checked :=
  let fetch := Call.Channel message.ChannelID
  match s.Channel message.ChannelID with
  | none => Checked.done ⟨channels, pre ++ [fetch], true⟩
  | some none =>
    let text := "Cannot create channel here."
    Checked.done ⟨channels, pre ++ [fetch, Call.ChannelMessageSend message.ChannelID text],
      !s.ChannelMessageSend message.ChannelID text⟩
  | some (some parentChannel) =>
    match channels.find? (fun e => e.2.ParentChannelID == message.ChannelID) with
    | some e =>
      let text := "There is already a voice channel `" ++ e.2.Name ++ "`"
      Checked.done ⟨channels, pre ++ [fetch, Call.ChannelMessageSend message.ChannelID text],
        !s.ChannelMessageSend message.ChannelID text⟩
    | none =>
      let title1 := if title.utf8ByteSize == 0 then parentChannel.Name else title
      Checked.waiting ⟨title1, message, parentChannel⟩ (pre ++ [fetch])

/-- The first part of `makeNewPrivateVoice`, up to the point where it calls
`s.GuildChannelCreate`, run on the map `channels`. -/
def makeNewPrivateVoiceChecks (g : Globals) (s : discordgo.Session) (channels : Registry)
    (title : String) (message : discordgo.MessageCreate) : Checked :=
  if g.voicePrefix.utf8ByteSize + title.utf8ByteSize > 100 then
    let text := "<@" ++ message.Author.ID ++ ">, that does not fit!"
    if s.ChannelMessageSend message.ChannelID text then
      lookupChecks s channels title message [Call.ChannelMessageSend message.ChannelID text]
    else
      Checked.done ⟨channels, [Call.ChannelMessageSend message.ChannelID text], true⟩
  else
    lookupChecks s channels title message []

/-- The second part of `makeNewPrivateVoice`, from the answer of
`s.GuildChannelCreate` on, run on the map `channels` as it is then. -/
def Pending.resume (p : Pending) (g : Globals) (s : discordgo.Session) (now : Time)
    (channels : Registry) (pre : List Call) : Outcome :=
  createAndGrant g s now channels p.title p.message p.parentChannel pre

/-! ## The running bot -/

/-- The state the goroutines share: the map, whether the sweep goroutine is
still in its loop, and the runs of `makeNewPrivateVoice` that wait for the
answer of `s.GuildChannelCreate`. -/
structure Bot where
  channels : Registry
  sweepRunning : Bool
  waiting : List Pending
  deriving DecidableEq

/-- The state after `main` has started the goroutine. -/
def Bot.init : Bot := ⟨[], true, []⟩

/-- What can happen to the running bot.  `meet` is a `!meet` message, whose
handler runs up to its call of `s.GuildChannelCreate`; `created i` is the
answer to that call for the `i`-th waiting run, which then runs to its
end. -/
inductive Event where
  | meet (s : discordgo.Session) (title : String) (message : discordgo.MessageCreate)
  | created (i : Nat) (s : discordgo.Session) (now : Time)
  | tick (s : discordgo.Session) (now : Time)
  | quit
  | channelDelete (s : discordgo.Session) (id : String)

/-- One event: the new state and the requests sent.  The steps are cut where
a handler reads or writes the map on both sides of a platform call: only
`makeNewPrivateVoice` does.  `channelDelete` looks up and deletes before its
one platform call, and a tick only reads the map.  The sweep goroutine leaves
its loop on `quit`, and when a tick panics (`catchPanic` is deferred outside
the loop); after that a tick finds no receiver. -/
def Bot.step (g : Globals) (b : Bot) : Event → Bot × List Call
  | Event.meet s title message =>
    match makeNewPrivateVoiceChecks g s b.channels title message with
    | Checked.done r => (⟨r.channels, b.sweepRunning, b.waiting⟩, r.calls)
    | Checked.waiting p sent => (⟨b.channels, b.sweepRunning, b.waiting ++ [p]⟩, sent)
  | Event.created i s now =>
    match b.waiting.get? i with
    | none => (b, [])
    | some p =>
      let r := p.resume g s now b.channels []
      (⟨r.channels, b.sweepRunning, b.waiting.eraseIdx i⟩, r.calls)
  | Event.tick s now =>
    if b.sweepRunning then
      let r := sweepTick g s now b.channels
      (⟨r.channels, !r.panicked, b.waiting⟩, r.calls)
    else
      (b, [])
  | Event.quit => (⟨b.channels, false, b.waiting⟩, [])
  | Event.channelDelete s id =>
    let r := channelDelete s b.channels id
    (⟨r.channels, b.sweepRunning, b.waiting⟩, r.calls)

/-- A run of events, from the left. -/
def Bot.run (g : Globals) (b : Bot) : List Event → Bot
  | [] => b
  | e :: es => Bot.run g (Bot.step g b e).1 es

/-- The requests sent during a run of events, in order. -/
def Bot.trace (g : Globals) (b : Bot) : List Event → List Call
  | [] => []
  | e :: es => (Bot.step g b e).2 ++ Bot.trace g (Bot.step g b e).1 es

/-! ## Invariants of the map -/

/-- Every entry is stored under its own `ChannelID`, and no key occurs
twice. -/
def Registry.WF (m : Registry) : Prop :=
  (m.map Prod.fst).Nodup ∧ ∀ e ∈ m, e.1 = e.2.ChannelID

/-- No two entries have the same `ParentChannelID`. -/
def Registry.UniqueParents (m : Registry) : Prop :=
  m.Pairwise (fun a b => a.2.ParentChannelID ≠ b.2.ParentChannelID)

/-! ## Concrete inputs -/

/-- A session that answers every request with success: it creates the
channel `v1`, and its guild has the members `u1`, who can view the parent
channel, and `u2`, who cannot. -/
def okSession : discordgo.Session :=
  { ChannelMessageSend := fun _ _ => true
    Channel := fun id => some (some ⟨id, "general"⟩)
    GuildChannelCreate := fun _ name => some ⟨"v1", name⟩
    ChannelPermissionSet := fun _ _ _ _ _ => true
    ChannelDelete := fun _ => true
    StateGuild := fun _ => some ⟨[⟨⟨"u1"⟩⟩, ⟨⟨"u2"⟩⟩], []⟩
    StateUserChannelPermissions := fun u _ => some (if u == "u1" then 0x400 else 0) }

/-- The session `okSession`, but with no guild in the state cache. -/
def noGuildSession : discordgo.Session :=
  { okSession with StateGuild := fun _ => none }

/-- A session like `okSession` whose guild has `u1` connected to `v1`. -/
def busySession : discordgo.Session :=
  { okSession with StateGuild := fun _ => some ⟨[⟨⟨"u1"⟩⟩], [⟨"u1", "v1"⟩]⟩ }

/-- A session like `okSession` that creates the channel `v2`. -/
def secondSession : discordgo.Session :=
  { okSession with GuildChannelCreate := fun _ name => some ⟨"v2", name⟩ }

/-- A session like `okSession` whose state cache lacks the guild `g2`. -/
def lostGuildSession : discordgo.Session :=
  { okSession with
    StateGuild := fun guildID => if guildID == "g2" then none else okSession.StateGuild guildID }

/-- The command `!meet` sent by `u1` in the channel `c1` of the guild `g1`. -/
def meetMessage : discordgo.MessageCreate := ⟨"c1", "g1", ⟨"u1"⟩⟩

/-- A title of 49 two-byte characters: 98 bytes, 102 with the prefix `PV: `. -/
def longTitle : String := String.mk (List.replicate 49 'é')

/-- The record of the channel `v1`, made at the instant 0 in `c1`. -/
def sampleChannel : voiceChannel :=
  newVoiceChannel (mainGlobals 0) ⟨0⟩ meetMessage "v1" "room"

/-- The command `!meet` sent by `u2` in the same channel `c1`. -/
def secondMessage : discordgo.MessageCreate := ⟨"c1", "g1", ⟨"u2"⟩⟩

/-- A map of three channels made at the instant 0: `v1` and `v3` in the guild
`g1`, and `v2` between them in the guild `g2`. -/
def threeChannels : Registry :=
  [("v1", sampleChannel),
    ("v2", newVoiceChannel (mainGlobals 0) ⟨0⟩ ⟨"c2", "g2", ⟨"u2"⟩⟩ "v2" "talk"),
    ("v3", newVoiceChannel (mainGlobals 0) ⟨0⟩ ⟨"c3", "g1", ⟨"u1"⟩⟩ "v3" "chat")]

/-! ## Lemmas on the map -/

theorem Registry.get_eq_none_iff (m : Registry) (k : String) :
    Registry.get m k = none ↔ ∀ e ∈ m, e.1 ≠ k := by
  simp [Registry.get, List.find?_eq_none]

theorem Registry.delete_of_get_none (m : Registry) (k : String)
    (h : Registry.get m k = none) : Registry.delete m k = m := by
  rw [Registry.get_eq_none_iff] at h
  simp only [Registry.delete, List.filter_eq_self]
  intro e he
  simpa using h e he

theorem Registry.get_delete_self (m : Registry) (k : String) :
    Registry.get (Registry.delete m k) k = none := by
  rw [Registry.get_eq_none_iff]
  intro e he
  simp only [Registry.delete, List.mem_filter] at he
  simpa using he.2

theorem Registry.mem_delete {m : Registry} {k : String} {e : String × voiceChannel} :
    e ∈ Registry.delete m k ↔ e ∈ m ∧ e.1 ≠ k := by
  simp [Registry.delete, List.mem_filter]

theorem Registry.delete_sublist (m : Registry) (k : String) :
    (Registry.delete m k).Sublist m :=
  List.filter_sublist m

theorem Registry.WF.wf_delete {m : Registry} (h : m.WF) (k : String) :
    (Registry.delete m k).WF := by
  refine ⟨?_, fun e he => h.2 e (Registry.mem_delete.1 he).1⟩
  exact h.1.sublist ((Registry.delete_sublist m k).map Prod.fst)

theorem Registry.WF.wf_set {m : Registry} (h : m.WF) (k : String) (v : voiceChannel)
    (hv : v.ChannelID = k) : (Registry.set m k v).WF := by
  have hd := h.wf_delete k
  refine ⟨?_, ?_⟩
  · simp only [Registry.set, List.map_append, List.map_cons, List.map_nil]
    rw [List.nodup_append]
    refine ⟨hd.1, List.nodup_singleton k, ?_⟩
    intro a ha hk
    simp only [List.mem_singleton] at hk
    subst hk
    obtain ⟨e, he, rfl⟩ := List.mem_map.1 ha
    exact (Registry.mem_delete.1 he).2 rfl
  · intro e he
    simp only [Registry.set, List.mem_append, List.mem_singleton] at he
    rcases he with he | rfl
    · exact hd.2 e he
    · exact hv.symm

theorem Registry.UniqueParents.unique_delete {m : Registry} (h : m.UniqueParents) (k : String) :
    (Registry.delete m k).UniqueParents :=
  List.Pairwise.sublist (Registry.delete_sublist m k) h

theorem Registry.UniqueParents.unique_set {m : Registry} (h : m.UniqueParents) (k : String)
    (v : voiceChannel) (hv : ∀ e ∈ m, e.2.ParentChannelID ≠ v.ParentChannelID) :
    (Registry.set m k v).UniqueParents := by
  simp only [Registry.UniqueParents, Registry.set]
  rw [List.pairwise_append]
  refine ⟨h.unique_delete k, List.pairwise_singleton _ _, ?_⟩
  intro a ha b hb
  simp only [List.mem_singleton] at hb
  subst hb
  exact hv a (Registry.mem_delete.1 ha).1

/-! ## Lemmas on the handlers -/

theorem createAndGrant_channels (g : Globals) (s : discordgo.Session) (now : Time)
    (channels : Registry) (title : String) (message : discordgo.MessageCreate)
    (parentChannel : discordgo.Channel) (pre : List Call) :
    (createAndGrant g s now channels title message parentChannel pre).channels = channels ∨
    ∃ newID, (createAndGrant g s now channels title message parentChannel pre).channels =
      Registry.set channels newID (newVoiceChannel g now message newID title) := by
  unfold createAndGrant
  cases s.GuildChannelCreate message.GuildID (g.voicePrefix ++ title) with
  | none => exact Or.inl rfl
  | some newChannel =>
    refine Or.inr ⟨newChannel.ID, ?_⟩
    dsimp only
    split_ifs
    · cases s.StateGuild message.GuildID <;> rfl
    · rfl
    · rfl

theorem lookupAndCreate_channels (g : Globals) (s : discordgo.Session) (now : Time)
    (channels : Registry) (title : String) (message : discordgo.MessageCreate)
    (pre : List Call) :
    (lookupAndCreate g s now channels title message pre).channels = channels ∨
    ((∀ e ∈ channels, e.2.ParentChannelID ≠ message.ChannelID) ∧
      ∃ newID title1, (lookupAndCreate g s now channels title message pre).channels =
        Registry.set channels newID (newVoiceChannel g now message newID title1)) := by
  unfold lookupAndCreate
  rcases hc : s.Channel message.ChannelID with _ | _ | parentChannel
  · exact Or.inl rfl
  · exact Or.inl rfl
  · dsimp only
    cases hf : channels.find? (fun e => e.2.ParentChannelID == message.ChannelID) with
    | some e => exact Or.inl rfl
    | none =>
      dsimp only
      rcases createAndGrant_channels g s now channels
        (if title.utf8ByteSize == 0 then parentChannel.Name else title) message parentChannel
        (pre ++ [Call.Channel message.ChannelID]) with h | ⟨newID, h⟩
      · exact Or.inl h
      · refine Or.inr ⟨?_, newID, _, h⟩
        intro e he
        have := List.find?_eq_none.1 hf e he
        simpa using this

theorem makeNewPrivateVoice_channels (g : Globals) (s : discordgo.Session) (now : Time)
    (channels : Registry) (title : String) (message : discordgo.MessageCreate) :
    (makeNewPrivateVoice g s now channels title message).channels = channels ∨
    ((∀ e ∈ channels, e.2.ParentChannelID ≠ message.ChannelID) ∧
      ∃ newID title1, (makeNewPrivateVoice g s now channels title message).channels =
        Registry.set channels newID (newVoiceChannel g now message newID title1)) := by
  unfold makeNewPrivateVoice
  dsimp only
  split_ifs
  · exact lookupAndCreate_channels g s now channels title message _
  · exact Or.inl rfl
  · exact lookupAndCreate_channels g s now channels title message _

theorem channelDelete_channels (s : discordgo.Session) (channels : Registry) (id : String) :
    (channelDelete s channels id).channels = channels ∨
    ∃ k, (channelDelete s channels id).channels = Registry.delete channels k := by
  unfold channelDelete
  cases Registry.get channels id with
  | none => exact Or.inl rfl
  | some channel => exact Or.inr ⟨channel.ChannelID, rfl⟩

theorem Registry.get_some_mem {m : Registry} {k : String} {v : voiceChannel}
    (h : Registry.get m k = some v) : (k, v) ∈ m := by
  simp only [Registry.get, Option.map_eq_some'] at h
  obtain ⟨e, he, rfl⟩ := h
  have hk := List.find?_some he
  have hm := List.mem_of_find?_eq_some he
  have : e.1 = k := by simpa using hk
  subst this
  exact hm

theorem Registry.WF.get_of_mem {m : Registry} (h : m.WF) {e : String × voiceChannel}
    (he : e ∈ m) : Registry.get m e.1 = some e.2 := by
  cases hg : Registry.get m e.1 with
  | none => exact absurd rfl ((Registry.get_eq_none_iff m e.1).1 hg e he)
  | some v =>
    have hm := Registry.get_some_mem hg
    have hinj := List.inj_on_of_nodup_map h.1 hm he rfl
    rw [← hinj]

theorem lookupChecks_done (s : discordgo.Session) (channels : Registry) (title : String)
    (message : discordgo.MessageCreate) (pre : List Call) (r : Outcome)
    (h : lookupChecks s channels title message pre = Checked.done r) :
    r.channels = channels := by
  unfold lookupChecks at h
  rcases hc : s.Channel message.ChannelID with _ | _ | parentChannel
  · rw [hc] at h; cases h; rfl
  · rw [hc] at h; cases h; rfl
  · rw [hc] at h
    dsimp only at h
    cases hf : channels.find? (fun e => e.2.ParentChannelID == message.ChannelID) with
    | some e => rw [hf] at h; cases h; rfl
    | none => rw [hf] at h; cases h

theorem makeNewPrivateVoiceChecks_done (g : Globals) (s : discordgo.Session)
    (channels : Registry) (title : String) (message : discordgo.MessageCreate) (r : Outcome)
    (h : makeNewPrivateVoiceChecks g s channels title message = Checked.done r) :
    r.channels = channels := by
  unfold makeNewPrivateVoiceChecks at h
  dsimp only at h
  split_ifs at h
  · exact lookupChecks_done s channels title message _ r h
  · cases h; rfl
  · exact lookupChecks_done s channels title message _ r h

/-- The two parts, run one after the other on the same map, are
`lookupAndCreate`. -/
theorem lookupAndCreate_eq_parts (g : Globals) (s : discordgo.Session) (now : Time)
    (channels : Registry) (title : String) (message : discordgo.MessageCreate)
    (pre : List Call) :
    lookupAndCreate g s now channels title message pre =
      match lookupChecks s channels title message pre with
      | Checked.done r => r
      | Checked.waiting p sent => p.resume g s now channels sent := by
  unfold lookupAndCreate lookupChecks
  rcases s.Channel message.ChannelID with _ | _ | parentChannel
  · rfl
  · rfl
  · dsimp only
    cases channels.find? (fun e => e.2.ParentChannelID == message.ChannelID) with
    | some e => rfl
    | none => rfl

/-- The two parts, run one after the other on the same map, are
`makeNewPrivateVoice`. -/
theorem makeNewPrivateVoice_eq_parts (g : Globals) (s : discordgo.Session) (now : Time)
    (channels : Registry) (title : String) (message : discordgo.MessageCreate) :
    makeNewPrivateVoice g s now channels title message =
      match makeNewPrivateVoiceChecks g s channels title message with
      | Checked.done r => r
      | Checked.waiting p sent => p.resume g s now channels sent := by
  unfold makeNewPrivateVoice makeNewPrivateVoiceChecks
  dsimp only
  by_cases h1 : g.voicePrefix.utf8ByteSize + title.utf8ByteSize > 100
  · rw [if_pos h1, if_pos h1]
    by_cases h2 : s.ChannelMessageSend message.ChannelID
        ("<@" ++ message.Author.ID ++ ">, that does not fit!") = true
    · rw [if_pos h2, if_pos h2]
      exact lookupAndCreate_eq_parts g s now channels title message _
    · rw [if_neg h2, if_neg h2]
  · rw [if_neg h1, if_neg h1]
    exact lookupAndCreate_eq_parts g s now channels title message _

/-- A run of `makeNewPrivateVoice` that no other handler interrupts keeps the
parent channels of the map distinct. -/
theorem makeNewPrivateVoice_unique_parents (g : Globals) (s : discordgo.Session) (now : Time)
    (channels : Registry) (title : String) (message : discordgo.MessageCreate)
    (h : channels.UniqueParents) :
    (makeNewPrivateVoice g s now channels title message).channels.UniqueParents := by
  rcases makeNewPrivateVoice_channels g s now channels title message with
    h1 | ⟨hp, newID, title1, h1⟩
  · rw [h1]; exact h
  · rw [h1]; exact h.unique_set _ _ hp

/-- Every step of the bot keeps every entry of the map under its own
`ChannelID`, each key once. -/
theorem Bot.step_wf (g : Globals) (b : Bot) (e : Event) (h : b.channels.WF) :
    (Bot.step g b e).1.channels.WF := by
  cases e with
  | meet s title message =>
    simp only [Bot.step]
    cases hc : makeNewPrivateVoiceChecks g s b.channels title message with
    | done r =>
      dsimp only
      rw [makeNewPrivateVoiceChecks_done g s b.channels title message r hc]
      exact h
    | waiting p sent => exact h
  | created i s now =>
    simp only [Bot.step]
    cases b.waiting.get? i with
    | none => exact h
    | some p =>
      dsimp only [Pending.resume]
      rcases createAndGrant_channels g s now b.channels p.title p.message p.parentChannel []
        with h1 | ⟨newID, h1⟩
      · rw [h1]; exact h
      · rw [h1]; exact h.wf_set _ _ rfl
  | tick s now =>
    simp only [Bot.step]
    split_ifs
    · exact h
    · exact h
  | quit => exact h
  | channelDelete s id =>
    simp only [Bot.step]
    rcases channelDelete_channels s b.channels id with h1 | ⟨k, h1⟩
    · rw [h1]; exact h
    · rw [h1]; exact h.wf_delete k

/-- Every state the bot reaches, under any interleaving of the handlers,
keeps every entry of the map under its own `ChannelID`, each key once. -/
theorem Bot.run_wf (g : Globals) (events : List Event) (b : Bot) (h : b.channels.WF) :
    (Bot.run g b events).channels.WF := by
  induction events generalizing b with
  | nil => exact h
  | cons e es ih => exact ih _ (Bot.step_wf g b e h)

theorem Bot.init_wf : Bot.init.channels.WF :=
  ⟨List.nodup_nil, fun _ he => absurd he (List.not_mem_nil _)⟩

/-! ## C1: a title that does not fit -/

/-- C1 (evaluated at a failing input): with the prefix `PV: ` and a title of
98 bytes, the length check of `makeNewPrivateVoice` fails, the notice is
sent, and the function goes on: it sends the channel-creation request and
stores the new record in the empty map. -/
theorem makeNewPrivateVoice_long_title_creates :
    (mainGlobals 0).voicePrefix.utf8ByteSize + longTitle.utf8ByteSize = 102 ∧
    (makeNewPrivateVoice (mainGlobals 0) okSession ⟨0⟩ [] longTitle meetMessage).calls.take 3 =
      [Call.ChannelMessageSend "c1" "<@u1>, that does not fit!", Call.Channel "c1",
        Call.GuildChannelCreate "g1" ("PV: " ++ longTitle)] ∧
    (makeNewPrivateVoice (mainGlobals 0) okSession ⟨0⟩ [] longTitle meetMessage).channels =
      [("v1", newVoiceChannel (mainGlobals 0) ⟨0⟩ meetMessage "v1" longTitle)] := by
  decide

/-! ## C2: one channel per parent channel -/

/-- C2 (evaluated at a failing input): `u1` and `u2` send `!meet` in the same
channel `c1` and both handlers run their duplicate check on the empty map
before either `s.GuildChannelCreate` has answered; both then store their
record, and the map holds `v1` and `v2` with the same `ParentChannelID`.
When the first run has ended before the second message, the second is
turned down and the map holds `v1` alone. -/
theorem overlapping_meets_share_parent :
    (Bot.run (mainGlobals 0) Bot.init
      [Event.meet okSession "room" meetMessage, Event.meet okSession "talk" secondMessage,
        Event.created 0 okSession ⟨0⟩, Event.created 0 secondSession ⟨1⟩]).channels =
      [("v1", newVoiceChannel (mainGlobals 0) ⟨0⟩ meetMessage "v1" "room"),
        ("v2", newVoiceChannel (mainGlobals 0) ⟨1⟩ secondMessage "v2" "talk")] ∧
    ¬ (Bot.run (mainGlobals 0) Bot.init
      [Event.meet okSession "room" meetMessage, Event.meet okSession "talk" secondMessage,
        Event.created 0 okSession ⟨0⟩, Event.created 0 secondSession ⟨1⟩]).channels.UniqueParents ∧
    (Bot.run (mainGlobals 0) Bot.init
      [Event.meet okSession "room" meetMessage, Event.created 0 okSession ⟨0⟩,
        Event.meet okSession "talk" secondMessage]).channels =
      [("v1", newVoiceChannel (mainGlobals 0) ⟨0⟩ meetMessage "v1" "room")] ∧
    Bot.trace (mainGlobals 0)
      (Bot.run (mainGlobals 0) Bot.init
        [Event.meet okSession "room" meetMessage, Event.created 0 okSession ⟨0⟩])
      [Event.meet okSession "talk" secondMessage] =
      [Call.Channel "c1",
        Call.ChannelMessageSend "c1" "There is already a voice channel `PV: room`"] := by
  refine ⟨by decide, ?_, by decide, by decide⟩
  unfold Registry.UniqueParents
  decide

/-! ## C9: expiry -/

/-- C9: for a non-negative `channelDeleteDelay`, `IsExpired` holds exactly
when `now` is strictly later than `CreatedAt + channelDeleteDelay`; it is
false at `now = CreatedAt` and at `now = CreatedAt + channelDeleteDelay`,
and once true it stays true at every later instant. -/
theorem IsExpired_iff (o : voiceChannel) (g : Globals) (now : Time)
    (httl : 0 ≤ g.channelDeleteDelay) :
    (o.IsExpired g now = true ↔ o.CreatedAt.ns + g.channelDeleteDelay < now.ns) ∧
    o.IsExpired g o.CreatedAt = false ∧
    o.IsExpired g (o.CreatedAt.Add g.channelDeleteDelay) = false ∧
    ∀ later : Time, now.ns ≤ later.ns → o.IsExpired g now = true →
      o.IsExpired g later = true := by
  simp only [voiceChannel.IsExpired, Time.Before, Time.Add, decide_eq_true_eq,
    decide_eq_false_iff_not, not_lt, le_refl, true_and]
  refine ⟨by linarith, ?_⟩
  intro later h1 h2
  linarith

/-- C9 at a concrete input: a channel made at the instant 0 with a delay of
30 seconds. -/
theorem IsExpired_iff_witness :
    (0 : Int) ≤ (mainGlobals 0).channelDeleteDelay ∧
    ((sampleChannel.IsExpired (mainGlobals 0) ⟨31000000000⟩ = true ↔
        sampleChannel.CreatedAt.ns + (mainGlobals 0).channelDeleteDelay < 31000000000) ∧
      sampleChannel.IsExpired (mainGlobals 0) sampleChannel.CreatedAt = false ∧
      sampleChannel.IsExpired (mainGlobals 0)
        (sampleChannel.CreatedAt.Add (mainGlobals 0).channelDeleteDelay) = false ∧
      ∀ later : Time, (31000000000 : Int) ≤ later.ns →
        sampleChannel.IsExpired (mainGlobals 0) ⟨31000000000⟩ = true →
        sampleChannel.IsExpired (mainGlobals 0) later = true) :=
  ⟨by decide, IsExpired_iff sampleChannel (mainGlobals 0) ⟨31000000000⟩ (by decide)⟩

/-! ## C3: a successful creation -/

theorem grantMembers_ok (g : Globals) (s : discordgo.Session) (newID parentID : String)
    (perm : String → Nat) (members : List discordgo.Member)
    (hperm : ∀ m ∈ members,
      s.StateUserChannelPermissions m.User.ID parentID = some (perm m.User.ID))
    (hset : ∀ c p t a d, s.ChannelPermissionSet c p t a d = true) :
    grantMembers g s newID parentID members =
      ((members.filter (fun m => perm m.User.ID &&& PermissionViewChannel != 0)).map
        (fun m => Call.ChannelPermissionSet newID m.User.ID PermissionOverwriteType.Member
          g.PermissionAllVoice 0), false) := by
  induction members with
  | nil => rfl
  | cons m rest ih =>
    have hrest := ih (fun x hx => hperm x (List.mem_cons_of_mem _ hx))
    have hm := hperm m (List.mem_cons_self _ _)
    unfold grantMembers
    rw [hm]
    dsimp only
    by_cases hv : (perm m.User.ID &&& PermissionViewChannel == 0) = true
    · rw [if_pos hv, hrest]
      have : (perm m.User.ID &&& PermissionViewChannel != 0) = false := by
        simp only [bne, hv, Bool.not_true]
      rw [List.filter_cons_of_neg (by simp [this])]
    · rw [if_neg hv, if_pos (hset _ _ _ _ _), hrest]
      have : (perm m.User.ID &&& PermissionViewChannel != 0) = true := by
        simp only [bne, Bool.not_eq_true] at hv ⊢
        rw [hv]; rfl
      rw [List.filter_cons_of_pos (by simp [this])]
      rfl

theorem Registry.find_parent_none {m : Registry} {p : String}
    (h : ∀ e ∈ m, e.2.ParentChannelID ≠ p) :
    m.find? (fun e => e.2.ParentChannelID == p) = none := by
  rw [List.find?_eq_none]
  intro e he
  simpa using h e he

/-- C3: for a request whose title fits, whose parent channel has no entry in
`channels`, and for which every platform call succeeds, `makeNewPrivateVoice`
returns without a panic, its one write to the map stores under the new
channel id a record whose `ParentChannelID` is the request's channel id, the
map then holds exactly one entry for that parent channel (and is the old map
with that entry added when the id is new to it), and after the creation and
its notice it sends the deny overwrite for the everyone role, then one allow
overwrite for each member whose permission on the parent channel has the
view-channel bit, in roster order, and nothing else. -/
theorem makeNewPrivateVoice_creates (g : Globals) (s : discordgo.Session) (now : Time)
    (channels : Registry) (title : String) (message : discordgo.MessageCreate)
    (parentChannel newChannel : discordgo.Channel) (guild : discordgo.Guild)
    (perm : String → Nat)
    (hfit : g.voicePrefix.utf8ByteSize + title.utf8ByteSize ≤ 100)
    (hfree : ∀ e ∈ channels, e.2.ParentChannelID ≠ message.ChannelID)
    (hparent : s.Channel message.ChannelID = some (some parentChannel))
    (hcreate : s.GuildChannelCreate message.GuildID
      (g.voicePrefix ++ (if title.utf8ByteSize == 0 then parentChannel.Name else title)) =
      some newChannel)
    (hsend : ∀ c t, s.ChannelMessageSend c t = true)
    (hset : ∀ c p t a d, s.ChannelPermissionSet c p t a d = true)
    (hguild : s.StateGuild message.GuildID = some guild)
    (hperm : ∀ m ∈ guild.Members,
      s.StateUserChannelPermissions m.User.ID parentChannel.ID = some (perm m.User.ID)) :
    (makeNewPrivateVoice g s now channels title message).panicked = false ∧
    (makeNewPrivateVoice g s now channels title message).channels =
      Registry.set channels newChannel.ID (newVoiceChannel g now message newChannel.ID
        (if title.utf8ByteSize == 0 then parentChannel.Name else title)) ∧
    (newVoiceChannel g now message newChannel.ID
      (if title.utf8ByteSize == 0 then parentChannel.Name else title)).ParentChannelID =
      message.ChannelID ∧
    (makeNewPrivateVoice g s now channels title message).channels.countP
      (fun e => e.2.ParentChannelID == message.ChannelID) = 1 ∧
    (Registry.get channels newChannel.ID = none →
      (makeNewPrivateVoice g s now channels title message).channels =
        channels ++ [(newChannel.ID, newVoiceChannel g now message newChannel.ID
          (if title.utf8ByteSize == 0 then parentChannel.Name else title))]) ∧
    (makeNewPrivateVoice g s now channels title message).calls =
      [Call.Channel message.ChannelID,
        Call.GuildChannelCreate message.GuildID
          (g.voicePrefix ++ (if title.utf8ByteSize == 0 then parentChannel.Name else title)),
        Call.ChannelMessageSend message.ChannelID
          ("Created voice channel `" ++ (g.voicePrefix ++
            (if title.utf8ByteSize == 0 then parentChannel.Name else title)) ++ "`"),
        Call.ChannelPermissionSet newChannel.ID message.GuildID PermissionOverwriteType.Role
          0 66060288] ++
      (guild.Members.filter (fun m => perm m.User.ID &&& PermissionViewChannel != 0)).map
        (fun m => Call.ChannelPermissionSet newChannel.ID m.User.ID
          PermissionOverwriteType.Member g.PermissionAllVoice 0) := by
  have hrun : makeNewPrivateVoice g s now channels title message =
      ⟨Registry.set channels newChannel.ID (newVoiceChannel g now message newChannel.ID
          (if title.utf8ByteSize == 0 then parentChannel.Name else title)),
        [Call.Channel message.ChannelID,
          Call.GuildChannelCreate message.GuildID
            (g.voicePrefix ++ (if title.utf8ByteSize == 0 then parentChannel.Name else title)),
          Call.ChannelMessageSend message.ChannelID
            ("Created voice channel `" ++ (g.voicePrefix ++
              (if title.utf8ByteSize == 0 then parentChannel.Name else title)) ++ "`"),
          Call.ChannelPermissionSet newChannel.ID message.GuildID PermissionOverwriteType.Role
            0 66060288] ++
        (guild.Members.filter (fun m => perm m.User.ID &&& PermissionViewChannel != 0)).map
          (fun m => Call.ChannelPermissionSet newChannel.ID m.User.ID
            PermissionOverwriteType.Member g.PermissionAllVoice 0), false⟩ := by
    unfold makeNewPrivateVoice
    rw [if_neg (Nat.not_lt.2 hfit)]
    unfold lookupAndCreate
    rw [hparent]
    dsimp only
    rw [Registry.find_parent_none hfree]
    dsimp only
    unfold createAndGrant
    rw [hcreate]
    dsimp only
    rw [if_pos (hsend _ _), if_pos (hset _ _ _ _ _), hguild]
    dsimp only
    rw [grantMembers_ok g s newChannel.ID parentChannel.ID perm guild.Members hperm hset]
    rfl
  rw [hrun]
  refine ⟨rfl, rfl, rfl, ?_, ?_, rfl⟩
  · dsimp only
    simp only [Registry.set, List.countP_append, List.countP_cons, List.countP_nil]
    have h0 : (Registry.delete channels newChannel.ID).countP
        (fun e => e.2.ParentChannelID == message.ChannelID) = 0 := by
      rw [List.countP_eq_zero]
      intro e he
      simpa using hfree e (Registry.mem_delete.1 he).1
    rw [h0]
    simp [newVoiceChannel]
  · intro hnone
    dsimp only
    rw [Registry.set, Registry.delete_of_get_none channels newChannel.ID hnone]

/-- C3 at a concrete input: the title `room` in the empty map, with a roster
of `u1`, who can view the parent channel, and `u2`, who cannot. -/
theorem makeNewPrivateVoice_creates_witness :
    (mainGlobals 0).voicePrefix.utf8ByteSize + "room".utf8ByteSize ≤ 100 ∧
    (makeNewPrivateVoice (mainGlobals 0) okSession ⟨0⟩ [] "room" meetMessage).channels.countP
      (fun e => e.2.ParentChannelID == meetMessage.ChannelID) = 1 ∧
    (makeNewPrivateVoice (mainGlobals 0) okSession ⟨0⟩ [] "room" meetMessage).calls =
      [Call.Channel "c1", Call.GuildChannelCreate "g1" "PV: room",
        Call.ChannelMessageSend "c1" "Created voice channel `PV: room`",
        Call.ChannelPermissionSet "v1" "g1" PermissionOverwriteType.Role 0 66060288,
        Call.ChannelPermissionSet "v1" "u1" PermissionOverwriteType.Member 0 0] :=
  have h := makeNewPrivateVoice_creates (mainGlobals 0) okSession ⟨0⟩ [] "room" meetMessage
    ⟨"c1", "general"⟩ ⟨"v1", "PV: room"⟩ ⟨[⟨⟨"u1"⟩⟩, ⟨⟨"u2"⟩⟩], []⟩
    (fun u => if u == "u1" then 0x400 else 0)
    (by decide) (fun _ he => absurd he (List.not_mem_nil _)) rfl rfl
    (fun _ _ => rfl) (fun _ _ _ _ _ => rfl) rfl (fun _ _ => rfl)
  ⟨by decide, h.2.2.2.1, h.2.2.2.2.2.trans (by decide)⟩

/-! ## C4: a roster failure -/

theorem grantMembers_panics (g : Globals) (s : discordgo.Session) (newID parentID : String)
    (members : List discordgo.Member)
    (h : ∃ m ∈ members, s.StateUserChannelPermissions m.User.ID parentID = none) :
    (grantMembers g s newID parentID members).2 = true := by
  induction members with
  | nil => obtain ⟨m, hm, _⟩ := h; exact absurd hm (List.not_mem_nil _)
  | cons x rest ih =>
    unfold grantMembers
    cases hx : s.StateUserChannelPermissions x.User.ID parentID with
    | none => rfl
    | some p =>
      have hrest : ∃ m ∈ rest, s.StateUserChannelPermissions m.User.ID parentID = none := by
        obtain ⟨m, hm, hnone⟩ := h
        rcases List.mem_cons.1 hm with rfl | hm
        · rw [hx] at hnone; cases hnone
        · exact ⟨m, hm, hnone⟩
      dsimp only
      split_ifs
      · exact ih hrest
      · exact ih hrest
      · rfl

/-- C4 (the claim fails): with a session that has no guild in its state
cache, `makeNewPrivateVoice` on the empty map has already sent the
channel-creation request and stored the record when it panics. -/
theorem roster_failure_after_creation :
    noGuildSession.StateGuild meetMessage.GuildID = none ∧
    Call.GuildChannelCreate "g1" "PV: room" ∈
      (makeNewPrivateVoice (mainGlobals 0) noGuildSession ⟨0⟩ [] "room" meetMessage).calls ∧
    (makeNewPrivateVoice (mainGlobals 0) noGuildSession ⟨0⟩ [] "room" meetMessage).channels =
      [("v1", sampleChannel)] ∧
    (makeNewPrivateVoice (mainGlobals 0) noGuildSession ⟨0⟩ [] "room" meetMessage).channels ≠
      [] := by
  decide

/-- C4 (amended): when the run of `makeNewPrivateVoice` reaches the roster
and the guild lookup fails, or the permission lookup of some member fails,
the function panics with no rollback: the channel-creation request has been
sent and the record of the new channel is in `channels`. -/
theorem makeNewPrivateVoice_roster_failure (g : Globals) (s : discordgo.Session) (now : Time)
    (channels : Registry) (title : String) (message : discordgo.MessageCreate)
    (parentChannel newChannel : discordgo.Channel)
    (hfit : g.voicePrefix.utf8ByteSize + title.utf8ByteSize > 100 →
      s.ChannelMessageSend message.ChannelID
        ("<@" ++ message.Author.ID ++ ">, that does not fit!") = true)
    (hfree : ∀ e ∈ channels, e.2.ParentChannelID ≠ message.ChannelID)
    (hparent : s.Channel message.ChannelID = some (some parentChannel))
    (hcreate : s.GuildChannelCreate message.GuildID
      (g.voicePrefix ++ (if title.utf8ByteSize == 0 then parentChannel.Name else title)) =
      some newChannel)
    (hsent : s.ChannelMessageSend message.ChannelID
      ("Created voice channel `" ++ (g.voicePrefix ++
        (if title.utf8ByteSize == 0 then parentChannel.Name else title)) ++ "`") = true)
    (hdeny : s.ChannelPermissionSet newChannel.ID message.GuildID
      PermissionOverwriteType.Role everyoneAllow everyoneDeny = true)
    (hfail : s.StateGuild message.GuildID = none ∨
      ∃ guild, s.StateGuild message.GuildID = some guild ∧
        ∃ m ∈ guild.Members,
          s.StateUserChannelPermissions m.User.ID parentChannel.ID = none) :
    (makeNewPrivateVoice g s now channels title message).panicked = true ∧
    Call.GuildChannelCreate message.GuildID
      (g.voicePrefix ++ (if title.utf8ByteSize == 0 then parentChannel.Name else title)) ∈
      (makeNewPrivateVoice g s now channels title message).calls ∧
    (makeNewPrivateVoice g s now channels title message).channels =
      Registry.set channels newChannel.ID (newVoiceChannel g now message newChannel.ID
        (if title.utf8ByteSize == 0 then parentChannel.Name else title)) := by
  have hcg : ∀ pre : List Call,
      (createAndGrant g s now channels
        (if title.utf8ByteSize == 0 then parentChannel.Name else title) message parentChannel
        pre).panicked = true ∧
      Call.GuildChannelCreate message.GuildID
        (g.voicePrefix ++ (if title.utf8ByteSize == 0 then parentChannel.Name else title)) ∈
        (createAndGrant g s now channels
          (if title.utf8ByteSize == 0 then parentChannel.Name else title) message parentChannel
          pre).calls ∧
      (createAndGrant g s now channels
        (if title.utf8ByteSize == 0 then parentChannel.Name else title) message parentChannel
        pre).channels =
        Registry.set channels newChannel.ID (newVoiceChannel g now message newChannel.ID
          (if title.utf8ByteSize == 0 then parentChannel.Name else title)) := by
    intro pre
    unfold createAndGrant
    rw [hcreate]
    dsimp only
    rw [if_pos hsent, if_pos hdeny]
    rcases hfail with hnone | ⟨guild, hguild, hm⟩
    · rw [hnone]
      exact ⟨rfl, by simp, rfl⟩
    · rw [hguild]
      exact ⟨grantMembers_panics g s newChannel.ID parentChannel.ID guild.Members hm,
        by simp, rfl⟩
  have hlc : ∀ pre : List Call,
      lookupAndCreate g s now channels title message pre =
        createAndGrant g s now channels
          (if title.utf8ByteSize == 0 then parentChannel.Name else title) message parentChannel
          (pre ++ [Call.Channel message.ChannelID]) := by
    intro pre
    unfold lookupAndCreate
    rw [hparent]
    dsimp only
    rw [Registry.find_parent_none hfree]
  unfold makeNewPrivateVoice
  dsimp only
  by_cases h1 : g.voicePrefix.utf8ByteSize + title.utf8ByteSize > 100
  · rw [if_pos h1, if_pos (hfit h1), hlc]; exact hcg _
  · rw [if_neg h1, hlc]; exact hcg _

/-- C4 (amended) at a concrete input: the title `room` in the empty map, with
no guild in the state cache. -/
theorem makeNewPrivateVoice_roster_failure_witness :
    noGuildSession.StateGuild meetMessage.GuildID = none ∧
    (makeNewPrivateVoice (mainGlobals 0) noGuildSession ⟨0⟩ [] "room" meetMessage).panicked =
      true ∧
    Call.GuildChannelCreate "g1" "PV: room" ∈
      (makeNewPrivateVoice (mainGlobals 0) noGuildSession ⟨0⟩ [] "room" meetMessage).calls ∧
    (makeNewPrivateVoice (mainGlobals 0) noGuildSession ⟨0⟩ [] "room" meetMessage).channels =
      Registry.set [] "v1" sampleChannel :=
  ⟨rfl, makeNewPrivateVoice_roster_failure (mainGlobals 0) noGuildSession ⟨0⟩ [] "room"
    meetMessage ⟨"c1", "general"⟩ ⟨"v1", "PV: room"⟩ (fun _ => rfl)
    (fun _ he => absurd he (List.not_mem_nil _)) rfl rfl rfl rfl (Or.inl rfl)⟩

/-! ## C5: the overwrite for the everyone role -/

theorem grantMembers_calls (g : Globals) (s : discordgo.Session) (newID parentID : String)
    (members : List discordgo.Member) :
    ∀ call ∈ (grantMembers g s newID parentID members).1,
      ∃ u, call = Call.ChannelPermissionSet newID u PermissionOverwriteType.Member
        g.PermissionAllVoice 0 := by
  induction members with
  | nil => intro call h; exact absurd h (List.not_mem_nil _)
  | cons x rest ih =>
    unfold grantMembers
    cases s.StateUserChannelPermissions x.User.ID parentID with
    | none => intro call h; exact absurd h (List.not_mem_nil _)
    | some p =>
      dsimp only
      split_ifs
      · exact ih
      · intro call h
        rcases List.mem_cons.1 h with rfl | h
        · exact ⟨_, rfl⟩
        · exact ih call h
      · intro call h
        rw [List.mem_singleton] at h
        exact ⟨_, h⟩

theorem createAndGrant_role_call (g : Globals) (s : discordgo.Session) (now : Time)
    (channels : Registry) (title : String) (message : discordgo.MessageCreate)
    (parentChannel : discordgo.Channel) (pre : List Call) (c p : String) (a d : Nat)
    (h : Call.ChannelPermissionSet c p PermissionOverwriteType.Role a d ∈
      (createAndGrant g s now channels title message parentChannel pre).calls) :
    Call.ChannelPermissionSet c p PermissionOverwriteType.Role a d ∈ pre ∨
    (p = message.GuildID ∧ a = everyoneAllow ∧ d = everyoneDeny) := by
  unfold createAndGrant at h
  cases hc : s.GuildChannelCreate message.GuildID (g.voicePrefix ++ title) with
  | none =>
    rw [hc] at h
    simp at h
    exact Or.inl h
  | some newChannel =>
    rw [hc] at h
    dsimp only at h
    split_ifs at h
    · cases hg : s.StateGuild message.GuildID with
      | none =>
        rw [hg] at h
        simp at h
        tauto
      | some guild =>
        rw [hg] at h
        dsimp only at h
        rcases List.mem_append.1 h with h | h
        · simp at h
          tauto
        · obtain ⟨u, hu⟩ := grantMembers_calls g s _ _ _ _ h
          cases hu
    · simp at h
      tauto
    · simp at h
      exact Or.inl h

theorem lookupAndCreate_role_call (g : Globals) (s : discordgo.Session) (now : Time)
    (channels : Registry) (title : String) (message : discordgo.MessageCreate)
    (pre : List Call) (c p : String) (a d : Nat)
    (hpre : Call.ChannelPermissionSet c p PermissionOverwriteType.Role a d ∉ pre)
    (h : Call.ChannelPermissionSet c p PermissionOverwriteType.Role a d ∈
      (lookupAndCreate g s now channels title message pre).calls) :
    p = message.GuildID ∧ a = everyoneAllow ∧ d = everyoneDeny := by
  unfold lookupAndCreate at h
  rcases hc : s.Channel message.ChannelID with _ | _ | parentChannel
  · rw [hc] at h
    simp at h
    exact absurd h hpre
  · rw [hc] at h
    simp at h
    exact absurd h hpre
  · rw [hc] at h
    dsimp only at h
    cases hf : channels.find? (fun e => e.2.ParentChannelID == message.ChannelID) with
    | some e =>
      rw [hf] at h
      simp at h
      exact absurd h hpre
    | none =>
      rw [hf] at h
      rcases createAndGrant_role_call g s now channels _ message parentChannel _ c p a d h with
        h | h
      · simp at h
        exact absurd h hpre
      · exact h

/-- C5 (the claim fails): the deny bitset 66060288 has no bit in common with
the view-channel bit 0x400, so it does not contain it. -/
theorem everyoneDeny_lacks_view_channel :
    everyoneDeny &&& PermissionViewChannel = 0 ∧
    everyoneDeny &&& PermissionViewChannel ≠ PermissionViewChannel := by
  decide

/-- C5 (amended): every role overwrite that `makeNewPrivateVoice` sends is for
the everyone role (the guild id), with the allow bitset 0 and the deny bitset
66060288; that bitset is the six voice bits 0x100000 to 0x2000000, so it
contains the voice-connect bit 0x100000 and does not contain the
view-channel bit 0x400. -/
theorem everyone_overwrite_bits (g : Globals) (s : discordgo.Session) (now : Time)
    (channels : Registry) (title : String) (message : discordgo.MessageCreate)
    (c p : String) (a d : Nat)
    (h : Call.ChannelPermissionSet c p PermissionOverwriteType.Role a d ∈
      (makeNewPrivateVoice g s now channels title message).calls) :
    p = message.GuildID ∧ a = 0 ∧ d = 66060288 ∧
    d &&& PermissionVoiceConnect = PermissionVoiceConnect ∧
    d &&& PermissionViewChannel = 0 ∧
    d = 0x100000 ||| 0x200000 ||| 0x400000 ||| 0x800000 ||| 0x1000000 ||| 0x2000000 := by
  have key : p = message.GuildID ∧ a = everyoneAllow ∧ d = everyoneDeny := by
    unfold makeNewPrivateVoice at h
    dsimp only at h
    split_ifs at h
    · refine lookupAndCreate_role_call g s now channels title message _ c p a d ?_ h
      simp
    · simp at h
    · exact lookupAndCreate_role_call g s now channels title message _ c p a d
        (List.not_mem_nil _) h
  obtain ⟨hp, ha, hd⟩ := key
  subst ha hd
  exact ⟨hp, rfl, rfl, by decide, by decide, by decide⟩

/-- C5 (amended) at a concrete input: the role overwrite of the run with the
title `room` in the empty map. -/
theorem everyone_overwrite_bits_witness :
    Call.ChannelPermissionSet "v1" "g1" PermissionOverwriteType.Role 0 66060288 ∈
      (makeNewPrivateVoice (mainGlobals 0) okSession ⟨0⟩ [] "room" meetMessage).calls ∧
    (66060288 : Nat) &&& PermissionVoiceConnect = PermissionVoiceConnect ∧
    (66060288 : Nat) &&& PermissionViewChannel = 0 :=
  have h := everyone_overwrite_bits (mainGlobals 0) okSession ⟨0⟩ [] "room" meetMessage
    "v1" "g1" 0 66060288 (by decide)
  ⟨by decide, h.2.2.2.1, h.2.2.2.2.1⟩

/-! ## C6: the deletion notification -/

/-- C6: on a map whose entries are stored under their own `ChannelID`,
handling the deletion notification for `id` twice leaves the map that
handling it once leaves, that map has no entry for `id`, the second run
sends nothing, and when `id` had no entry the first run leaves the map as it
was and sends nothing; whatever the platform answers. -/
theorem channelDelete_idempotent (s1 s2 : discordgo.Session) (channels : Registry)
    (id : String) (hwf : channels.WF) :
    (channelDelete s2 (channelDelete s1 channels id).channels id).channels =
      (channelDelete s1 channels id).channels ∧
    Registry.get (channelDelete s1 channels id).channels id = none ∧
    (channelDelete s2 (channelDelete s1 channels id).channels id).calls = [] ∧
    (Registry.get channels id = none →
      (channelDelete s1 channels id).channels = channels ∧
      (channelDelete s1 channels id).calls = []) := by
  have hnone : Registry.get (channelDelete s1 channels id).channels id = none := by
    unfold channelDelete
    cases hg : Registry.get channels id with
    | none => exact hg
    | some channel =>
      have hk : id = channel.ChannelID := hwf.2 _ (Registry.get_some_mem hg)
      dsimp only [voiceChannel.ConfirmDelete]
      rw [← hk]
      exact Registry.get_delete_self channels id
  have hsecond : channelDelete s2 (channelDelete s1 channels id).channels id =
      ⟨(channelDelete s1 channels id).channels, [], false⟩ := by
    generalize (channelDelete s1 channels id).channels = m at hnone
    unfold channelDelete
    rw [hnone]
  refine ⟨by rw [hsecond], hnone, by rw [hsecond], ?_⟩
  intro h
  unfold channelDelete
  rw [h]
  exact ⟨rfl, rfl⟩

theorem sampleRegistry_wf : Registry.WF [("v1", sampleChannel)] := by
  refine ⟨by decide, ?_⟩
  intro e he
  rw [List.mem_singleton] at he
  subst he
  rfl

/-- C6 at a concrete input: the map that holds the channel `v1`. -/
theorem channelDelete_idempotent_witness :
    Registry.WF [("v1", sampleChannel)] ∧
    (channelDelete okSession (channelDelete okSession [("v1", sampleChannel)] "v1").channels
      "v1").channels = [] ∧
    (channelDelete okSession [("v1", sampleChannel)] "v1").channels = [] :=
  have h := channelDelete_idempotent okSession okSession [("v1", sampleChannel)] "v1"
    sampleRegistry_wf
  ⟨sampleRegistry_wf, h.1.trans (by decide), by decide⟩

/-! ## C7: the sweep spares occupied channels -/

theorem connectedCount_eq_countP (guild : discordgo.Guild) (id : String) :
    connectedCount guild id = guild.VoiceStates.countP (fun v => v.ChannelID == id) := by
  have key : ∀ (l : List discordgo.VoiceState) (acc : Nat),
      l.foldl (fun connected voiceState =>
        if voiceState.ChannelID == id then connected + 1 else connected) acc =
      acc + l.countP (fun v => v.ChannelID == id) := by
    intro l
    induction l with
    | nil => intro acc; rfl
    | cons v rest ih =>
      intro acc
      rw [List.foldl_cons, ih, List.countP_cons]
      split_ifs <;> omega
  rw [connectedCount, key, Nat.zero_add]

theorem sweepEntries_calls (g : Globals) (s : discordgo.Session) (now : Time)
    (entries : List (String × voiceChannel)) :
    ∀ call ∈ (sweepEntries g s now entries).1,
      ∃ e ∈ entries, ∃ guild, call = Call.ChannelDelete e.2.ChannelID ∧
        s.StateGuild e.2.GuildID = some guild ∧ connectedCount guild e.1 = 0 ∧
        e.2.IsExpired g now = true := by
  induction entries with
  | nil => intro call h; exact absurd h (List.not_mem_nil _)
  | cons x rest ih =>
    obtain ⟨id, channel⟩ := x
    have hrest : ∀ call ∈ (sweepEntries g s now rest).1,
        ∃ e ∈ (id, channel) :: rest, ∃ guild, call = Call.ChannelDelete e.2.ChannelID ∧
          s.StateGuild e.2.GuildID = some guild ∧ connectedCount guild e.1 = 0 ∧
          e.2.IsExpired g now = true := by
      intro call h
      obtain ⟨e, he, hrest⟩ := ih call h
      exact ⟨e, List.mem_cons_of_mem _ he, hrest⟩
    unfold sweepEntries
    cases hg : s.StateGuild channel.GuildID with
    | none => intro call h; exact absurd h (List.not_mem_nil _)
    | some guild =>
      dsimp only
      by_cases hcond : (channel.IsExpired g now && connectedCount guild id == 0) = true
      · have hhere : ∃ e ∈ (id, channel) :: rest, ∃ guild,
            Call.ChannelDelete channel.ChannelID = Call.ChannelDelete e.2.ChannelID ∧
            s.StateGuild e.2.GuildID = some guild ∧ connectedCount guild e.1 = 0 ∧
            e.2.IsExpired g now = true := by
          rw [Bool.and_eq_true, beq_iff_eq] at hcond
          exact ⟨(id, channel), List.mem_cons_self _ _, guild, rfl, hg, hcond.2, hcond.1⟩
        rw [if_pos hcond]
        split_ifs
        · intro call h
          rcases List.mem_cons.1 h with rfl | h
          · exact hhere
          · exact hrest call h
        · intro call h
          rw [List.mem_singleton] at h
          subst h
          exact hhere
      · rw [if_neg hcond]
        exact hrest

/-- C7: on a map whose entries are stored under their own `ChannelID`, a
sweep tick leaves the map as it was, and every request it sends is the
deletion of a channel of the map that is expired and for which the number
of voice states with that channel's id is 0; whatever the platform
answers. -/
theorem sweepTick_spares_occupied (g : Globals) (s : discordgo.Session) (now : Time)
    (channels : Registry) (hwf : channels.WF) :
    (sweepTick g s now channels).channels = channels ∧
    ∀ call ∈ (sweepTick g s now channels).calls,
      ∃ channel guild, call = Call.ChannelDelete channel.ChannelID ∧
        Registry.get channels channel.ChannelID = some channel ∧
        s.StateGuild channel.GuildID = some guild ∧
        guild.VoiceStates.countP (fun v => v.ChannelID == channel.ChannelID) = 0 ∧
        channel.IsExpired g now = true := by
  refine ⟨rfl, ?_⟩
  intro call h
  obtain ⟨e, he, guild, hcall, hguild, hcount, hexp⟩ := sweepEntries_calls g s now channels call h
  have hk : e.1 = e.2.ChannelID := hwf.2 e he
  refine ⟨e.2, guild, hcall, ?_, hguild, ?_, hexp⟩
  · rw [← hk]; exact hwf.get_of_mem he
  · rw [← hk, ← connectedCount_eq_countP]; exact hcount

/-- C7 at a concrete input: the channel `v1`, expired at 31 seconds, is not
deleted while `u1` is connected to it. -/
theorem sweepTick_spares_occupied_witness :
    Registry.WF [("v1", sampleChannel)] ∧
    sampleChannel.IsExpired (mainGlobals 0) ⟨31000000000⟩ = true ∧
    (sweepTick (mainGlobals 0) busySession ⟨31000000000⟩ [("v1", sampleChannel)]).channels =
      [("v1", sampleChannel)] ∧
    (sweepTick (mainGlobals 0) busySession ⟨31000000000⟩ [("v1", sampleChannel)]).calls = [] :=
  ⟨sampleRegistry_wf, by decide,
    (sweepTick_spares_occupied (mainGlobals 0) busySession ⟨31000000000⟩
      [("v1", sampleChannel)] sampleRegistry_wf).1, by decide⟩

/-! ## C8: what a sweep tick does to an expired, empty channel -/

theorem sweepEntries_ok (g : Globals) (s : discordgo.Session) (now : Time)
    (entries : List (String × voiceChannel))
    (hguild : ∀ e ∈ entries, s.StateGuild e.2.GuildID ≠ none)
    (hdel : ∀ c, s.ChannelDelete c = true) :
    (sweepEntries g s now entries).2 = false ∧
    ∀ e ∈ entries, e.2.IsExpired g now = true →
      (∀ guild, s.StateGuild e.2.GuildID = some guild → connectedCount guild e.1 = 0) →
      Call.ChannelDelete e.2.ChannelID ∈ (sweepEntries g s now entries).1 := by
  induction entries with
  | nil => exact ⟨rfl, fun e he => absurd he (List.not_mem_nil _)⟩
  | cons x rest ih =>
    obtain ⟨id, channel⟩ := x
    obtain ⟨ih1, ih2⟩ := ih (fun e he => hguild e (List.mem_cons_of_mem _ he))
    unfold sweepEntries
    cases hg : s.StateGuild channel.GuildID with
    | none => exact absurd hg (hguild (id, channel) (List.mem_cons_self _ _))
    | some guild =>
      dsimp only [voiceChannel.Delete]
      rw [if_pos (hdel _)]
      by_cases hcond : (channel.IsExpired g now && connectedCount guild id == 0) = true
      · rw [if_pos hcond]
        refine ⟨ih1, ?_⟩
        intro e he hexp hocc
        rcases List.mem_cons.1 he with rfl | he
        · exact List.mem_cons_self _ _
        · exact List.mem_cons_of_mem _ (ih2 e he hexp hocc)
      · rw [if_neg hcond]
        refine ⟨ih1, ?_⟩
        intro e he hexp hocc
        rcases List.mem_cons.1 he with rfl | he
        · exfalso
          apply hcond
          rw [Bool.and_eq_true, beq_iff_eq]
          exact ⟨hexp, hocc guild hg⟩
        · exact ih2 e he hexp hocc

/-- C8 (the claim fails): with a delay of 30 seconds, the channel `v1` made at
the instant 0 and empty is still in `channels` after the sweep tick at 31
seconds in which every platform call succeeds, and the tick has sent the
deletion request only, no notification. -/
theorem sweepTick_keeps_record :
    sampleChannel.IsExpired (mainGlobals 0) ⟨31000000000⟩ = true ∧
    okSession.StateGuild sampleChannel.GuildID = some ⟨[⟨⟨"u1"⟩⟩, ⟨⟨"u2"⟩⟩], []⟩ ∧
    Registry.get (sweepTick (mainGlobals 0) okSession ⟨31000000000⟩
      [("v1", sampleChannel)]).channels "v1" = some sampleChannel ∧
    (sweepTick (mainGlobals 0) okSession ⟨31000000000⟩ [("v1", sampleChannel)]).calls =
      [Call.ChannelDelete "v1"] ∧
    (sweepTick (mainGlobals 0) okSession ⟨31000000000⟩ [("v1", sampleChannel)]).panicked =
      false := by
  decide

/-- C8 (amended): after a sweep tick in which every platform call succeeds,
on a map whose entries are stored under their own `ChannelID`, the map is as
it was and a deletion request has been sent for every record that was
expired and had occupancy 0; when `channelDelete` then handles the
platform's deletion notification for such a record, the record leaves the
map and one deletion notification is sent to its parent channel. -/
theorem sweepTick_then_channelDelete (g : Globals) (s : discordgo.Session) (now : Time)
    (channels : Registry) (hwf : channels.WF)
    (hguild : ∀ e ∈ channels, s.StateGuild e.2.GuildID ≠ none)
    (hdel : ∀ c, s.ChannelDelete c = true) :
    (sweepTick g s now channels).panicked = false ∧
    (sweepTick g s now channels).channels = channels ∧
    ∀ e ∈ channels, e.2.IsExpired g now = true →
      (∀ guild, s.StateGuild e.2.GuildID = some guild →
        guild.VoiceStates.countP (fun v => v.ChannelID == e.1) = 0) →
      Call.ChannelDelete e.1 ∈ (sweepTick g s now channels).calls ∧
      ∀ s2 : discordgo.Session,
        Registry.get (channelDelete s2 (sweepTick g s now channels).channels e.1).channels e.1 =
          none ∧
        (channelDelete s2 (sweepTick g s now channels).channels e.1).calls =
          [Call.ChannelMessageSend e.2.ParentChannelID
            ("Deleted voice channel `" ++ e.2.Name ++ "`")] := by
  obtain ⟨h1, h2⟩ := sweepEntries_ok g s now channels hguild hdel
  refine ⟨h1, rfl, ?_⟩
  intro e he hexp hocc
  have hk : e.1 = e.2.ChannelID := hwf.2 e he
  refine ⟨?_, ?_⟩
  · rw [hk]
    refine h2 e he hexp ?_
    intro guild hg
    rw [connectedCount_eq_countP]
    exact hocc guild hg
  · intro s2
    have hget : Registry.get channels e.1 = some e.2 := hwf.get_of_mem he
    have hrun : channelDelete s2 (sweepTick g s now channels).channels e.1 =
        e.2.ConfirmDelete s2 channels := by
      simp only [sweepTick, channelDelete, hget]
    rw [hrun]
    refine ⟨?_, rfl⟩
    dsimp only [voiceChannel.ConfirmDelete]
    rw [← hk]
    exact Registry.get_delete_self channels e.1

/-- C8 (amended) at a concrete input: the channel `v1`, made at the instant 0
and empty, at the sweep tick at 31 seconds. -/
theorem sweepTick_then_channelDelete_witness :
    Registry.WF [("v1", sampleChannel)] ∧
    Call.ChannelDelete "v1" ∈
      (sweepTick (mainGlobals 0) okSession ⟨31000000000⟩ [("v1", sampleChannel)]).calls ∧
    (channelDelete okSession
      (sweepTick (mainGlobals 0) okSession ⟨31000000000⟩ [("v1", sampleChannel)]).channels
      "v1").calls = [Call.ChannelMessageSend "c1" "Deleted voice channel `PV: room`"] :=
  have h := (sweepTick_then_channelDelete (mainGlobals 0) okSession ⟨31000000000⟩
    [("v1", sampleChannel)] sampleRegistry_wf (by decide) (fun _ => rfl)).2.2
    ("v1", sampleChannel) (List.mem_singleton.2 rfl) (by decide)
    (by intro guild hg; cases hg; rfl)
  ⟨sampleRegistry_wf, h.1, (h.2 okSession).2.trans (by decide)⟩

/-! ## C10: a failure during a sweep tick -/

theorem sweepEntries_cons (g : Globals) (s : discordgo.Session) (now : Time)
    (id : String) (channel : voiceChannel) (rest : List (String × voiceChannel)) :
    sweepEntries g s now ((id, channel) :: rest) =
      match s.StateGuild channel.GuildID with
      | none => ([], true)
      | some guild =>
        if channel.IsExpired g now && connectedCount guild id == 0 then
          if (channel.Delete s).2 then
            ((channel.Delete s).1 :: (sweepEntries g s now rest).1,
              (sweepEntries g s now rest).2)
          else
            ([(channel.Delete s).1], true)
        else
          sweepEntries g s now rest :=
  rfl

theorem sweepEntries_append (g : Globals) (s : discordgo.Session) (now : Time)
    (before rest : List (String × voiceChannel)) :
    sweepEntries g s now (before ++ rest) =
      if (sweepEntries g s now before).2 then sweepEntries g s now before
      else ((sweepEntries g s now before).1 ++ (sweepEntries g s now rest).1,
        (sweepEntries g s now rest).2) := by
  induction before with
  | nil => simp [sweepEntries]
  | cons x before ih =>
    obtain ⟨id, channel⟩ := x
    rw [List.cons_append, sweepEntries_cons, sweepEntries_cons]
    cases s.StateGuild channel.GuildID with
    | none => rfl
    | some guild =>
      dsimp only
      by_cases hcond : (channel.IsExpired g now && connectedCount guild id == 0) = true
      · rw [if_pos hcond, if_pos hcond]
        by_cases hdel : (channel.Delete s).2 = true
        · rw [if_pos hdel, if_pos hdel, ih]
          dsimp only
          by_cases hp : (sweepEntries g s now before).2 = true
          · rw [if_pos hp, if_pos hp]
          · rw [if_neg hp, if_neg hp]
            rfl
        · rw [if_neg hdel, if_neg hdel]
          rfl
      · rw [if_neg hcond, if_neg hcond]
        exact ih

/-- A tick in which the guild lookup fails at an entry ends there: it has
sent the requests for the entries before it, sends none for the entries
after it, and panics. -/
theorem sweepTick_ends_at_failure (g : Globals) (s : discordgo.Session) (now : Time)
    (before after : List (String × voiceChannel)) (e : String × voiceChannel)
    (hbefore : (sweepEntries g s now before).2 = false)
    (hfail : s.StateGuild e.2.GuildID = none) :
    sweepTick g s now (before ++ e :: after) =
      ⟨before ++ e :: after, (sweepEntries g s now before).1, true⟩ := by
  have hhere : sweepEntries g s now (e :: after) = ([], true) := by
    obtain ⟨id, channel⟩ := e
    rw [sweepEntries_cons]
    dsimp only at hfail
    rw [hfail]
  unfold sweepTick
  rw [sweepEntries_append, hbefore, hhere]
  simp

/-- Once the sweep goroutine has left its loop, it stays out of it, and a
tick sends nothing and changes nothing. -/
theorem Bot.step_stopped (g : Globals) (b : Bot) (e : Event)
    (h : b.sweepRunning = false) :
    (Bot.step g b e).1.sweepRunning = false ∧
    ∀ s now, e = Event.tick s now → Bot.step g b e = (b, []) := by
  cases e with
  | meet s title message =>
    refine ⟨?_, fun _ _ he => by cases he⟩
    simp only [Bot.step]
    cases makeNewPrivateVoiceChecks g s b.channels title message <;> exact h
  | created i s now =>
    refine ⟨?_, fun _ _ he => by cases he⟩
    simp only [Bot.step]
    cases b.waiting.get? i <;> exact h
  | tick s now =>
    have hstep : Bot.step g b (Event.tick s now) = (b, []) := by
      simp [Bot.step, h]
    exact ⟨by rw [hstep]; exact h, fun _ _ he => by cases he; exact hstep⟩
  | quit => exact ⟨rfl, fun _ _ he => by cases he⟩
  | channelDelete s id => exact ⟨h, fun _ _ he => by cases he⟩

theorem Bot.run_stopped (g : Globals) (events : List Event) (b : Bot)
    (h : b.sweepRunning = false) : (Bot.run g b events).sweepRunning = false := by
  induction events generalizing b with
  | nil => exact h
  | cons e es ih => exact ih _ (Bot.step_stopped g b e h).1

/-- After a tick of the running sweep in which a platform call fails, the map
is as it was and the goroutine has left its loop: whatever happens next, no
later tick sends a request or changes the state. -/
theorem Bot.sweep_failure_is_final (g : Globals) (b : Bot) (s : discordgo.Session) (now : Time)
    (hrun : b.sweepRunning = true)
    (hfail : (sweepTick g s now b.channels).panicked = true) :
    (Bot.step g b (Event.tick s now)).1.channels = b.channels ∧
    (Bot.step g b (Event.tick s now)).1.sweepRunning = false ∧
    ∀ (events : List Event) (s2 : discordgo.Session) (now2 : Time),
      Bot.step g (Bot.run g (Bot.step g b (Event.tick s now)).1 events) (Event.tick s2 now2) =
        (Bot.run g (Bot.step g b (Event.tick s now)).1 events, []) := by
  have hstep : (Bot.step g b (Event.tick s now)).1 = ⟨b.channels, false, b.waiting⟩ := by
    simp only [Bot.step, hrun, if_true, hfail, Bool.not_true]
    rfl
  rw [hstep]
  refine ⟨rfl, rfl, ?_⟩
  intro events s2 now2
  exact (Bot.step_stopped g _ _ (Bot.run_stopped g events _ rfl)).2 s2 now2 rfl

/-- C10 (evaluated at a failing input): the map holds `v1`, `v2` and `v3`,
all expired and empty, and the state cache lacks the guild of `v2`.  The
tick at 31 seconds sends the deletion of `v1`, panics at `v2` and never
looks at `v3`; the map is as it was, and the sweep goroutine has left its
loop: the ticks at 41 and 51 seconds, in which every platform call would
succeed, send nothing, where a running sweep sends the three deletions. -/
theorem sweep_stops_after_failure :
    (sweepTick (mainGlobals 0) lostGuildSession ⟨31000000000⟩ threeChannels).calls =
      [Call.ChannelDelete "v1"] ∧
    (sweepTick (mainGlobals 0) lostGuildSession ⟨31000000000⟩ threeChannels).panicked = true ∧
    (Bot.step (mainGlobals 0) ⟨threeChannels, true, []⟩
      (Event.tick lostGuildSession ⟨31000000000⟩)).1 = ⟨threeChannels, false, []⟩ ∧
    Bot.trace (mainGlobals 0) ⟨threeChannels, true, []⟩
      [Event.tick lostGuildSession ⟨31000000000⟩, Event.tick okSession ⟨41000000000⟩,
        Event.tick okSession ⟨51000000000⟩] = [Call.ChannelDelete "v1"] ∧
    (Bot.run (mainGlobals 0) ⟨threeChannels, true, []⟩
      [Event.tick lostGuildSession ⟨31000000000⟩, Event.tick okSession ⟨41000000000⟩,
        Event.tick okSession ⟨51000000000⟩]).channels = threeChannels ∧
    Bot.trace (mainGlobals 0) ⟨threeChannels, true, []⟩ [Event.tick okSession ⟨41000000000⟩] =
      [Call.ChannelDelete "v1", Call.ChannelDelete "v2", Call.ChannelDelete "v3"] := by
  decide

end PrivateVoiceBot
